import Mathlib

/-!
Shallow embedding of `haystack/preview/document_stores/memory/document_store.py`
(class `MemoryDocumentStore`): the in-memory storage dictionary, the
`write_documents` / `delete_documents` lifecycle operations, the
`bm25_algorithm` property setter, and the `bm25_retrieval` pipeline.

Conventions of the embedding:
* Python's insertion-ordered `dict` of id -> Document is a `List (Document α)`
  in insertion order with unique ids; assignment to an existing key replaces the
  value in place, assignment to a fresh key appends.
* Raised Python exceptions are explicit values (`Option String` error slots or
  `Except PyError`).
* Float scores are the parameter `α` (instantiated with `ℚ` for executable runs
  and with `ℝ` when the logistic transform is involved).
* The `Document` dataclass (haystack.preview.dataclasses), the `match` filter
  evaluator (memory/_filters.py) and `expit` (haystack.utils.scipy_utils) are
  repository code that is not part of the given sources; they are modelled from
  the spec where marked.
-/

namespace Haystack

/-- Minimal model of a pandas `DataFrame` as used by `bm25_retrieval`: column
names and row-major stringified cells (`astype(str)` is the identity here). -/
structure DataFrame where
  columns : List String
  rows : List (List String)
deriving DecidableEq

/-- Content payload of a document: a Python `str` or a pandas `DataFrame`.
`bm25_retrieval` distinguishes the two with `isinstance(doc.content, pd.DataFrame)`. -/
inductive DocContent
  | text (s : String)
  | frame (df : DataFrame)
deriving DecidableEq

/-- Modelled from the spec: the `Document` record shape of spec section 6 (the
dataclass `haystack.preview.dataclasses.Document` is not among the given source
files): `id` (string), `content` (string or tabular structure), `content_type`
(tag `"text"` or `"table"`), `meta` mapping, optional `score`.  The payload and
the tag vary independently; the spec itself relies on documents "that are tables
but not in the expected tabular representation". -/
structure Document (α : Type) where
  id : String
  content : DocContent
  content_type : String
  meta : List (String × String) := []
  score : Option α := none
deriving DecidableEq

instance {α : Type} : Inhabited (Document α) :=
  ⟨⟨"", DocContent.text "", "text", [], none⟩⟩

/-- Python `str.lower()` (per-character lowercasing). -/
def pyLower (s : String) : String :=
  String.mk (s.data.map Char.toLower)

/-- A regex word character for the default pattern `(?u)\b\w\w+\b`. -/
def isWordChar (c : Char) : Bool :=
  c.isAlphanum || c == '_'

/-- Maximal runs of word characters in a character list; `cur` is the current
run accumulated in reverse. -/
def wordRunsAux (cur : List Char) : List Char → List (List Char)
  | [] => if cur.isEmpty then [] else [cur.reverse]
  | c :: cs =>
    if isWordChar c then wordRunsAux (c :: cur) cs
    else if cur.isEmpty then wordRunsAux [] cs
    else cur.reverse :: wordRunsAux [] cs

/-- The store's default tokenizer `re.compile(r"(?u)\b\w\w+\b").findall`:
all maximal runs of at least two word characters, in order. -/
def defaultTokenize (s : String) : List String :=
  ((wordRunsAux [] s.data).filter (fun r => 2 ≤ r.length)).map (fun r => String.mk r)

/-- Python list slicing `l[:k]`: for a nonnegative stop, the first `k` elements;
for a negative stop, all but the last `|k|` elements (clamped at zero). -/
def pySlice {β : Type} (l : List β) (k : Int) : List β :=
  if 0 ≤ k then l.take k.toNat else l.take (l.length - (-k).toNat)

/-- Python dict assignment `storage[d.id] = d` on the insertion-ordered
id -> Document dictionary: replace in place if the id is present, else append. -/
def dictInsert {α : Type} (storage : List (Document α)) (d : Document α) : List (Document α) :=
  match storage with
  | [] => [d]
  | e :: rest => if e.id = d.id then d :: rest else e :: dictInsert rest d

/-- Python `del storage[i]` (the id is known to be present when called). -/
def dictRemove {α : Type} (storage : List (Document α)) (i : String) : List (Document α) :=
  match storage with
  | [] => []
  | e :: rest => if e.id = i then rest else e :: dictRemove rest i

/-- Python `document.id in self.storage.keys()`. -/
def hasId {α : Type} (storage : List (Document α)) (i : String) : Bool :=
  (storage.map (fun d => d.id)).contains i

/-- The `duplicates` argument of `write_documents`. -/
inductive DuplicatePolicy
  | skip
  | overwrite
  | fail
deriving DecidableEq

/-- Outcome of `MemoryDocumentStore.write_documents`: the storage after the
call, the ids for which `logger.warning` fired, and the id of the
`DuplicateDocumentError` if one was raised (`none` when the call returned). -/
structure WriteResult (α : Type) where
  storage : List (Document α)
  warnings : List String
  error : Option String
deriving DecidableEq

/-- `MemoryDocumentStore.write_documents` (document_store.py lines 141-147):
iterate over the documents; on a duplicate id, `fail` raises at once (documents
after the conflict are not written), `skip` logs a warning; in the source the
assignment `self.storage[document.id] = document` is executed unconditionally
after the duplicate check, so `skip` and `overwrite` both store the new
document. -/
def write_documents {α : Type} (storage : List (Document α)) (documents : List (Document α))
    (duplicates : DuplicatePolicy) : WriteResult α :=
  match documents with
  | [] => ⟨storage, [], none⟩
  | d :: rest =>
    if hasId storage d.id then
      match duplicates with
      | .fail => ⟨storage, [], some d.id⟩
      | .skip =>
        let r := write_documents (dictInsert storage d) rest duplicates
        ⟨r.storage, d.id :: r.warnings, r.error⟩
      | .overwrite => write_documents (dictInsert storage d) rest duplicates
    else write_documents (dictInsert storage d) rest duplicates

/-- `MemoryDocumentStore.delete_documents` (document_store.py lines 149-159):
delete ids in order; the first id not present raises `MissingDocumentError`
(returned as `some id`), leaving the deletions made so far applied. -/
def delete_documents {α : Type} (storage : List (Document α)) (document_ids : List String) :
    List (Document α) × Option String :=
  match document_ids with
  | [] => (storage, none)
  | i :: rest =>
    if hasId storage i then delete_documents (dictRemove storage i) rest
    else (storage, some i)

/-- `MemoryDocumentStore.count_documents`. -/
def count_documents {α : Type} (storage : List (Document α)) : Nat :=
  storage.length

/-- State of a `MemoryDocumentStore` instance: the storage dictionary, the
compiled tokenizer (`bm25_tokenization_regex` setter stores
`re.compile(...).findall`), the scoring capability (the `bm25_algorithm` class
already applied to `bm25_parameters`; per spec section 6 it maps a tokenized
corpus and a tokenized query to one score per corpus entry), and the `bm25`
attribute set by `bm25_retrieval` (identified with the tokenized corpus the
model was built from). -/
structure MemoryDocumentStore (α : Type) where
  storage : List (Document α)
  tokenizer : String → List String
  scorer : List (List String) → List String → List α
  bm25 : Option (List (List String)) := none

/-- Python exceptions that the modelled fragments can raise. -/
inductive PyError
  | attributeError
  | valueError
deriving DecidableEq

/-- The call `self.filter_documents(filters={"content_type": ["text", "table"]})`
opening `bm25_retrieval`.  The filter evaluator (`memory/_filters.py`) is not
among the given source files; modelled from spec section 4.3 step 1: keep the
documents whose content-type tag is `text` or `table`, in storage order (a field
node with a sequence value is an implicit membership test, spec section 3). -/
def filterTextTable {α : Type} (storage : List (Document α)) : List (Document α) :=
  storage.filter (fun d => d.content_type == "text" || d.content_type == "table")

/-- Pandas `DataFrame.to_csv(index=False)`: the header line followed by the
rows, comma-separated. -/
def DataFrame.toCsv (df : DataFrame) : String :=
  String.intercalate "," df.columns ++ "\n"
    ++ String.join (df.rows.map (fun r => String.intercalate "," r ++ "\n"))

/-- The corpus-building loop of `bm25_retrieval` (document_store.py lines
186-192): text documents contribute `doc.content.lower()` (an `AttributeError`
if the payload is not a `str`), table documents contribute
`doc.content.astype(str).to_csv(index=False).lower()` but only when the payload
is a pandas DataFrame - otherwise the document is silently skipped. -/
def lower_case_documents {α : Type} : List (Document α) → Except PyError (List String)
  | [] => .ok []
  | doc :: rest =>
    if doc.content_type = "text" then
      match doc.content with
      | .text s =>
        match lower_case_documents rest with
        | .error e => .error e
        | .ok tl => .ok (pyLower s :: tl)
      | .frame _ => .error .attributeError
    else if doc.content_type = "table" then
      match doc.content with
      | .frame df =>
        match lower_case_documents rest with
        | .error e => .error e
        | .ok tl => .ok (pyLower (df.toCsv) :: tl)
      | .text _ => lower_case_documents rest
    else lower_case_documents rest

/-- Score of index `i` in the score list, `docs_scores[i]` (always called with
`i` in range). -/
def sAt {α : Type} [Inhabited α] (scores : List α) (i : Nat) : α :=
  scores.getD i default

/-- Stable ascending insertion of index `i` into an index list sorted by score:
`i` goes before the first index with a strictly larger score, hence after every
index with an equal score. -/
def insertIdx {α : Type} [LinearOrder α] [Inhabited α] (scores : List α) (i : Nat) :
    List Nat → List Nat
  | [] => [i]
  | j :: rest =>
    if sAt scores i < sAt scores j then i :: j :: rest
    else j :: insertIdx scores i rest

/-- Indices `0, ..., n-1` inserted in order, giving the stable ascending
argsort of the first `n` scores. -/
def argsortAux {α : Type} [LinearOrder α] [Inhabited α] (scores : List α) : Nat → List Nat
  | 0 => []
  | n + 1 => insertIdx scores n (argsortAux scores n)

/-- `np.argsort(docs_scores)`: indices of the scores in ascending score order,
ties in ascending index order (numpy sorts small arrays with a stable insertion
sort). -/
def argsort {α : Type} [LinearOrder α] [Inhabited α] (scores : List α) : List Nat :=
  argsortAux scores scores.length

/-- `np.argsort(docs_scores)[::-1][:top_k]` (document_store.py line 205):
reverse the ascending argsort and apply the Python slice `[:top_k]`. -/
def top_docs_positions {α : Type} [LinearOrder α] [Inhabited α] (scores : List α)
    (top_k : Int) : List Nat :=
  pySlice (argsort scores).reverse top_k

/-- The body of the return loop of `bm25_retrieval` (lines 208-214):
`doc.to_dict()`, overwrite the `score` entry with `docs_scores[i]`, rebuild a
`Document` and `copy.copy` it - a fresh document equal to `all_documents[i]`
except for its score. -/
def annotate {α : Type} [Inhabited α] (all_documents : List (Document α)) (scores : List α)
    (i : Nat) : Document α :=
  { all_documents.getD i default with score := some (sAt scores i) }

/-- `MemoryDocumentStore.bm25_retrieval` (document_store.py lines 180-215).
`expitFn` stands for `expit` imported from `haystack.utils.scipy_utils` (not
among the given source files); the scale step applies it to `score / 8`.
Returns the annotated documents and the store with its `bm25` attribute set;
a Python exception from the corpus build is an `Except.error`. -/
def bm25_retrieval {α : Type} [LinearOrder α] [Inhabited α] [Div α] [OfNat α 8]
    (expitFn : α → α) (store : MemoryDocumentStore α) (query : String) (top_k : Int)
    (scale_score : Bool) :
    Except PyError (List (Document α) × MemoryDocumentStore α) :=
  let all_documents := filterTextTable store.storage
  match lower_case_documents all_documents with
  | .error e => .error e
  | .ok lcd =>
    let tokenized_corpus := lcd.map store.tokenizer
    let tokenized_query := store.tokenizer (pyLower query)
    let raw_scores := store.scorer tokenized_corpus tokenized_query
    let docs_scores := if scale_score then raw_scores.map (fun s => expitFn (s / 8)) else raw_scores
    let positions := top_docs_positions docs_scores top_k
    .ok (positions.map (fun i => annotate all_documents docs_scores i),
      { store with bm25 := some tokenized_corpus })

/-- A Python attribute value looked up on the `rank_bm25` module: either the
`None` object or one of the module's classes. -/
inductive PyVal
  | pyNone
  | cls (name : String)
deriving DecidableEq

/-- Attribute table of the `rank_bm25` module, with the scoring classes the
spec names (section 6: "three selectable variants by name") and their common
base class; every defined attribute is a class, none is the `None` object. -/
def rankBm25Attr (name : String) : Option PyVal :=
  if name = "BM25Okapi" ∨ name = "BM25L" ∨ name = "BM25Plus" ∨ name = "BM25" then
    some (PyVal.cls name)
  else none

/-- The `bm25_algorithm` property setter (document_store.py lines 173-178):
`getattr(rank_bm25, algorithm)` with no default raises `AttributeError` for an
undefined name; the guard `if algorithm_class is None` then raises
`ValueError`. -/
def bm25_algorithm_setter (algorithm : String) : Except PyError PyVal :=
  match rankBm25Attr algorithm with
  | none => .error .attributeError
  | some v => if v = PyVal.pyNone then .error .valueError else .ok v

/-- Strict order on corpus indices realised by the stable ascending argsort:
`a` precedes `b` when `a`'s score is smaller, or the scores are equal and `a`
is the earlier index. -/
def scoreIdxLt {α : Type} [LinearOrder α] [Inhabited α] (scores : List α) (a b : Nat) : Prop :=
  sAt scores a < sAt scores b ∨ (sAt scores a = sAt scores b ∧ a < b)

/-- Modelled from the spec: the logistic (sigmoid) transform; the source
imports `expit` from `haystack.utils.scipy_utils`, which is not among the given
source files.  Spec section 4.3 step 6: a logistic transform "mapping scores
into the open interval (0,1)". -/
noncomputable def expit (x : ℝ) : ℝ :=
  1 / (1 + Real.exp (-x))

/-! Concrete fixtures for witnesses and counterexamples. -/

/-- A simple term-frequency scoring capability over `ℚ` used for executable
runs: the score of a corpus entry is the number of its tokens that occur in the
query.  It satisfies the capability contract of spec section 6: one score per
corpus entry, aligned by corpus index. -/
def tfScorer (corpus : List (List String)) (query : List String) : List ℚ :=
  corpus.map (fun doc => ((doc.filter (fun t => query.contains t)).length : ℚ))

/-- A table-typed document whose payload is not a DataFrame: it passes the
content-type filter but is silently dropped from the BM25 corpus. -/
def docTableBad : Document ℚ := ⟨"t", DocContent.text "no frame", "table", [], none⟩

/-- A text document containing the query term `cat`. -/
def docCat : Document ℚ := ⟨"a", DocContent.text "cat", "text", [], none⟩

/-- Store holding the dropped table document before the matching text
document. -/
def storeMix : MemoryDocumentStore ℚ := ⟨[docTableBad, docCat], defaultTokenize, tfScorer, none⟩

/-- First of two text documents with identical content (hence equal scores). -/
def docX : Document ℚ := ⟨"x", DocContent.text "aa", "text", [], none⟩

/-- Second of two text documents with identical content (hence equal scores). -/
def docY : Document ℚ := ⟨"y", DocContent.text "aa", "text", [], none⟩

/-- Store holding two documents that tie on every query. -/
def storeTie : MemoryDocumentStore ℚ := ⟨[docX, docY], defaultTokenize, tfScorer, none⟩

/-- A store holding no documents at all. -/
def storeEmpty : MemoryDocumentStore ℚ := ⟨[], defaultTokenize, tfScorer, none⟩

/-- A single real-scored text document, for the logistic-scaling claim. -/
def docReal : Document ℝ := ⟨"r", DocContent.text "aa", "text", [], none⟩

/-- A real-scored store whose scoring capability assigns every corpus entry the
raw score `0` (one score per corpus entry, as spec section 6 requires). -/
def storeReal : MemoryDocumentStore ℝ :=
  ⟨[docReal], defaultTokenize, fun c _ => c.map (fun _ => 0), none⟩

/-- A stored document with id `1` and content `old`. -/
def docOld : Document ℚ := ⟨"1", DocContent.text "old", "text", [], none⟩

/-- A fresh document with the already-taken id `1` and content `new`. -/
def docNew : Document ℚ := ⟨"1", DocContent.text "new", "text", [], none⟩

/-- A document with the fresh id `2`. -/
def docTwo : Document ℚ := ⟨"2", DocContent.text "two", "text", [], none⟩

/-- A document with the fresh id `3`. -/
def docThree : Document ℚ := ⟨"3", DocContent.text "three", "text", [], none⟩

/-! Properties of the stable argsort and the position slice. -/

/-- Membership in a stable insertion. -/
theorem mem_insertIdx {α : Type} [LinearOrder α] [Inhabited α] (scores : List α) (i k : Nat)
    (l : List Nat) : k ∈ insertIdx scores i l ↔ k = i ∨ k ∈ l := by
  induction l with
  | nil => simp [insertIdx]
  | cons j rest ih =>
    simp only [insertIdx]
    split
    · simp [List.mem_cons]
    · simp [List.mem_cons, ih]
      tauto

/-- Inserting one index grows the list by one. -/
theorem length_insertIdx {α : Type} [LinearOrder α] [Inhabited α] (scores : List α) (i : Nat)
    (l : List Nat) : (insertIdx scores i l).length = l.length + 1 := by
  induction l with
  | nil => rfl
  | cons j rest ih =>
    simp only [insertIdx]
    split
    · rfl
    · simp [ih]

/-- Stable insertion of an index larger than everything present preserves the
strict score-then-index order. -/
theorem pairwise_insertIdx {α : Type} [LinearOrder α] [Inhabited α] (scores : List α)
    (i : Nat) (l : List Nat) (hlt : ∀ j ∈ l, j < i) (hp : l.Pairwise (scoreIdxLt scores)) :
    (insertIdx scores i l).Pairwise (scoreIdxLt scores) := by
  induction l with
  | nil => simp [insertIdx, scoreIdxLt]
  | cons j rest ih =>
    rw [List.pairwise_cons] at hp
    obtain ⟨hj, hrest⟩ := hp
    simp only [insertIdx]
    split
    next hcmp =>
      refine List.pairwise_cons.mpr ⟨?_, List.pairwise_cons.mpr ⟨hj, hrest⟩⟩
      intro k hk
      rcases List.mem_cons.mp hk with rfl | hk'
      · exact Or.inl hcmp
      · rcases hj k hk' with hlt' | ⟨heq, _⟩
        · exact Or.inl (lt_trans hcmp hlt')
        · exact Or.inl (heq ▸ hcmp)
    next hcmp =>
      refine List.pairwise_cons.mpr
        ⟨?_, ih (fun a ha => hlt a (List.mem_cons_of_mem j ha)) hrest⟩
      intro k hk
      rcases (mem_insertIdx scores i k rest).mp hk with rfl | hk'
      · have hji : j < k := hlt j (List.mem_cons_self j rest)
        rcases lt_or_eq_of_le (not_lt.mp hcmp) with h1 | h1
        · exact Or.inl h1
        · exact Or.inr ⟨h1, hji⟩
      · exact hj k hk'

/-- Every index produced by the partial argsort is below the bound. -/
theorem argsortAux_mem_lt {α : Type} [LinearOrder α] [Inhabited α] (scores : List α)
    (n k : Nat) (hk : k ∈ argsortAux scores n) : k < n := by
  induction n with
  | zero => simp [argsortAux] at hk
  | succ m ih =>
    rcases (mem_insertIdx scores m k (argsortAux scores m)).mp hk with rfl | hk'
    · exact Nat.lt_succ_self k
    · exact Nat.lt_succ_of_lt (ih hk')

/-- The partial argsort is strictly sorted by score, ties by index. -/
theorem argsortAux_pairwise {α : Type} [LinearOrder α] [Inhabited α] (scores : List α)
    (n : Nat) : (argsortAux scores n).Pairwise (scoreIdxLt scores) := by
  induction n with
  | zero => simp [argsortAux]
  | succ m ih =>
    exact pairwise_insertIdx scores m (argsortAux scores m)
      (fun j hj => argsortAux_mem_lt scores m j hj) ih

/-- The partial argsort has one entry per inserted index. -/
theorem argsortAux_length {α : Type} [LinearOrder α] [Inhabited α] (scores : List α)
    (n : Nat) : (argsortAux scores n).length = n := by
  induction n with
  | zero => rfl
  | succ m ih => simp [argsortAux, length_insertIdx, ih]

/-- The selected positions are an initial segment of the reversed argsort. -/
theorem top_docs_positions_sublist {α : Type} [LinearOrder α] [Inhabited α] (scores : List α)
    (k : Int) : (top_docs_positions scores k).Sublist (argsort scores).reverse := by
  unfold top_docs_positions pySlice
  split
  · exact List.take_sublist _ _
  · exact List.take_sublist _ _

/-- The slice `[:top_k]` keeps a prefix of the descending ranking. -/
theorem top_docs_positions_prefix {α : Type} [LinearOrder α] [Inhabited α] (scores : List α)
    (k : Int) :
    ∃ rest, (argsort scores).reverse = top_docs_positions scores k ++ rest := by
  unfold top_docs_positions pySlice
  split
  · exact ⟨(argsort scores).reverse.drop k.toNat, (List.take_append_drop _ _).symm⟩
  · exact ⟨(argsort scores).reverse.drop ((argsort scores).reverse.length - (-k).toNat),
      (List.take_append_drop _ _).symm⟩

/-- Every selected position indexes into the score list. -/
theorem mem_top_docs_positions {α : Type} [LinearOrder α] [Inhabited α] (scores : List α)
    (k : Int) (i : Nat) (hi : i ∈ top_docs_positions scores k) : i < scores.length := by
  have h1 : i ∈ (argsort scores).reverse := (top_docs_positions_sublist scores k).mem hi
  rw [List.mem_reverse] at h1
  exact argsortAux_mem_lt scores scores.length i h1

/-- The selected positions are pairwise in strictly descending
score-then-index order. -/
theorem top_docs_positions_pairwise {α : Type} [LinearOrder α] [Inhabited α] (scores : List α)
    (k : Int) :
    (top_docs_positions scores k).Pairwise (fun a b => scoreIdxLt scores b a) := by
  have h1 : (argsort scores).reverse.Pairwise (fun a b => scoreIdxLt scores b a) :=
    List.pairwise_reverse.mpr (argsortAux_pairwise scores scores.length)
  exact h1.sublist (top_docs_positions_sublist scores k)

/-- Length of the selected positions under Python slice semantics. -/
theorem top_docs_positions_length {α : Type} [LinearOrder α] [Inhabited α] (scores : List α)
    (k : Int) :
    (top_docs_positions scores k).length =
      if 0 ≤ k then min k.toNat scores.length else scores.length - (-k).toNat := by
  unfold top_docs_positions pySlice
  have hlen : (argsort scores).reverse.length = scores.length := by
    rw [List.length_reverse]
    exact argsortAux_length scores scores.length
  split
  · simp [List.length_take, hlen]
  · simp [List.length_take, hlen]

/-! Claim theorems: write and delete lifecycle, algorithm setter. -/

/-- C2.  On a store holding a document with id `1`, writing a new document with
the same id under the `skip` policy emits the warning but stores the NEW
document: the `skip` branch in the source logs and then falls through to the
unconditional assignment, so the existing document is not retained.  This
contradicts the method's own docstring ("skip: keep the existing document and
ignore the new one"). -/
theorem write_documents_skip_stores_new :
    write_documents [docOld] [docNew] DuplicatePolicy.skip =
      ⟨[docNew], ["1"], none⟩ := by decide

/-- C6.  Under the `fail` policy, when the documents before `d` all have fresh
ids (the prefix write raises no error) and `d`'s id is already present in the
store as updated by that prefix, the whole call applies exactly the prefix
writes, emits no warnings, and raises `DuplicateDocumentError` at `d`:
documents after the first conflict are not written. -/
theorem write_documents_fail_first_conflict {α : Type} (storage : List (Document α))
    (pre : List (Document α)) (d : Document α) (post : List (Document α))
    (hpre : (write_documents storage pre DuplicatePolicy.fail).error = none)
    (hdup : hasId (write_documents storage pre DuplicatePolicy.fail).storage d.id = true) :
    write_documents storage (pre ++ d :: post) DuplicatePolicy.fail =
      ⟨(write_documents storage pre DuplicatePolicy.fail).storage, [], some d.id⟩ := by
  induction pre generalizing storage with
  | nil =>
    simp only [write_documents] at hdup ⊢
    simp [write_documents, hdup]
  | cons p ps ih =>
    by_cases h : hasId storage p.id
    · simp [write_documents, h] at hpre
    · simp only [List.cons_append, write_documents, h, Bool.false_eq_true, if_false] at hpre hdup ⊢
      exact ih (dictInsert storage p) hpre hdup

/-- Witness for C6: writing `[docTwo, docNew, docThree]` on a store holding
`docOld` (same id as `docNew`) applies `docTwo`, raises at `docNew`, and never
writes `docThree`. -/
theorem write_documents_fail_first_conflict_witness :
    write_documents [docOld] [docTwo, docNew, docThree] DuplicatePolicy.fail =
      ⟨[docOld, docTwo], [], some "1"⟩ := by
  have h := write_documents_fail_first_conflict [docOld] [docTwo] docNew [docThree]
    (by decide) (by decide)
  exact h.trans (by decide)

/-- C7.  `delete_documents` processes identifiers in order: if the identifiers
before `x` are all successively present (the prefix delete raises no error) and
`x` is absent from the store left by those deletions, the whole call stops at
`x` with a `MissingDocumentError`, keeping the prefix deletions applied and
processing nothing after `x`.  With `pre = []` this is the single-absent-id
scenario: the store is returned unmodified. -/
theorem delete_documents_fail_fast {α : Type} (storage : List (Document α))
    (pre : List String) (x : String) (post : List String)
    (hpre : (delete_documents storage pre).2 = none)
    (hx : hasId (delete_documents storage pre).1 x = false) :
    delete_documents storage (pre ++ x :: post) =
      ((delete_documents storage pre).1, some x) := by
  induction pre generalizing storage with
  | nil =>
    simp only [delete_documents] at hx ⊢
    simp [delete_documents, hx]
  | cons i is ih =>
    by_cases h : hasId storage i
    · simp only [List.cons_append, delete_documents, h, if_true] at hpre hx ⊢
      exact ih (dictRemove storage i) hpre hx
    · simp [delete_documents, h] at hpre

/-- Witness for C7: deleting `["1", "9", "2"]` from a store holding ids `1`
and `2` removes `1`, raises at the absent `9`, and leaves `2` in place. -/
theorem delete_documents_fail_fast_witness :
    delete_documents [docOld, docTwo] ["1", "9", "2"] = ([docTwo], some "9") := by
  have h := delete_documents_fail_fast [docOld, docTwo] ["1"] "9" ["2"] (by decide) (by decide)
  exact h.trans (by decide)

/-- C10.  The `bm25_algorithm` setter never raises the guarded `ValueError`:
`getattr(rank_bm25, algorithm)` either returns one of the module's classes
(never the `None` object) or raises `AttributeError` for a name the scoring
library does not define, so the `is None` guard is dead code. -/
theorem bm25_algorithm_setter_valueError_unreachable (algorithm : String) :
    bm25_algorithm_setter algorithm ≠ Except.error PyError.valueError ∧
    (rankBm25Attr algorithm = none →
      bm25_algorithm_setter algorithm = Except.error PyError.attributeError) := by
  unfold bm25_algorithm_setter rankBm25Attr
  by_cases h : algorithm = "BM25Okapi" ∨ algorithm = "BM25L" ∨ algorithm = "BM25Plus" ∨
      algorithm = "BM25"
  · simp [h]
  · simp [h]

/-- Witness for C10: the undefined name `Foo` raises `AttributeError`, not
`ValueError`. -/
theorem bm25_algorithm_setter_witness :
    rankBm25Attr "Foo" = none ∧
      bm25_algorithm_setter "Foo" = Except.error PyError.attributeError :=
  ⟨by decide, (bm25_algorithm_setter_valueError_unreachable "Foo").2 (by decide)⟩

/-! Claim theorems: the BM25 retrieval pipeline. -/

/-- C1, failing input.  On a store whose first text/table document is a
table-typed document with a non-DataFrame payload (dropped from the corpus) and
whose second is the text document `cat`, the query `cat` builds the one-entry
corpus `["cat"]` (the text document's rendering), computes score `1` for that
entry, and then returns `all_documents[0]` - the dropped TABLE document -
annotated with the text document's score: a document paired with another
document's score, because line 209 indexes the unfiltered `all_documents` with
a corpus-aligned position. -/
theorem bm25_score_misalignment :
    (bm25_retrieval (α := ℚ) (fun x => x) storeMix "cat" 1 false).toOption.map
      (fun p => p.1.map (fun d => (d.id, d.content_type, d.score))) =
      some [("t", "table", some 1)] ∧
    lower_case_documents (filterTextTable storeMix.storage) = Except.ok ["cat"] :=
  ⟨by decide, rfl⟩

/-- C3, counterexample.  Two text documents `x` and `y` with identical content
tie with score `1` on the query `aa`, yet `bm25_retrieval` returns them in the
order `y, x`: the reversal of the ascending argsort puts equal scores in
REVERSED filtered-corpus order, so the tie-break is not the claimed stable
original order. -/
theorem bm25_ties_reversed_counterexample :
    (bm25_retrieval (α := ℚ) (fun x => x) storeTie "aa" 10 false).toOption.map
      (fun p => p.1.map (fun d => (d.id, d.score))) =
      some [("y", some 1), ("x", some 1)] ∧
    ["y", "x"] ≠ ["x", "y"] := by
  exact ⟨by decide, by decide⟩

/-- C3 as amended.  The positions selected by line 205
(`np.argsort(docs_scores)[::-1][:top_k]`) are pairwise in strictly descending
score order with ties broken by DESCENDING corpus index (the reverse of the
original filtered order), and they form a prefix (the first `top_k` under
Python slice semantics) of the full reversed argsort; `bm25_retrieval` returns
the documents along these positions in this order. -/
theorem bm25_rank_descending_ties_reversed {α : Type} [LinearOrder α] [Inhabited α]
    (scores : List α) (top_k : Int) :
    (top_docs_positions scores top_k).Pairwise
      (fun i j => sAt scores j < sAt scores i ∨ (sAt scores i = sAt scores j ∧ j < i)) ∧
    ∃ rest, (argsort scores).reverse = top_docs_positions scores top_k ++ rest := by
  constructor
  · refine (top_docs_positions_pairwise scores top_k).imp ?_
    intro a b h
    rcases h with h1 | ⟨h1, h2⟩
    · exact Or.inl h1
    · exact Or.inr ⟨h1.symm, h2⟩
  · exact top_docs_positions_prefix scores top_k

/-- C4, counterexample.  With `top_k = -1` on a two-document corpus the Python
slice `[:-1]` keeps all but the last ranked entry, so `bm25_retrieval` returns
one document, not the empty sequence the claim demands for every `top_k ≤ 0`. -/
theorem bm25_topk_negative_counterexample :
    (bm25_retrieval (α := ℚ) (fun x => x) storeTie "aa" (-1) false).toOption.map
      (fun p => p.1.map (fun d => d.id)) = some ["y"] ∧
    some ["y"] ≠ some ([] : List String) := by
  exact ⟨by decide, by decide⟩

/-- C4 as amended.  For `top_k = 0` the call returns the empty sequence, but
for negative `top_k` it returns all but the last `|top_k|` ranked corpus
entries - `max 0 (corpus size + top_k)` documents (Python slice semantics) -
which is nonempty whenever the corpus has more than `|top_k|` entries. -/
theorem bm25_topk_nonpositive {α : Type} [LinearOrder α] [Inhabited α] [Div α] [OfNat α 8]
    (expitFn : α → α) (store : MemoryDocumentStore α) (query : String) (k : Int)
    (scale_score : Bool) (lcd : List String) (docs : List (Document α))
    (st : MemoryDocumentStore α) (hk : k ≤ 0)
    (hlcd : lower_case_documents (filterTextTable store.storage) = Except.ok lcd)
    (hscorer : ∀ c q, (store.scorer c q).length = c.length)
    (hok : bm25_retrieval expitFn store query k scale_score = Except.ok (docs, st)) :
    docs.length = if k = 0 then 0 else ((lcd.length : Int) + k).toNat := by
  unfold bm25_retrieval at hok
  simp only [hlcd, Except.ok.injEq, Prod.mk.injEq] at hok
  obtain ⟨hdocs, hst⟩ := hok
  have hraw : (store.scorer (lcd.map store.tokenizer) (store.tokenizer (pyLower query))).length
      = lcd.length := by
    rw [hscorer, List.length_map]
  have hds : (if scale_score then
      (store.scorer (lcd.map store.tokenizer) (store.tokenizer (pyLower query))).map
        (fun s => expitFn (s / 8))
      else store.scorer (lcd.map store.tokenizer)
        (store.tokenizer (pyLower query))).length = lcd.length := by
    cases scale_score
    · simpa using hraw
    · simpa using hraw
  rw [← hdocs, List.length_map, top_docs_positions_length, hds]
  rcases lt_or_eq_of_le hk with hneg | rfl
  · rw [if_neg (by omega), if_neg (by omega)]
    omega
  · simp

/-- Witness for C4 as amended: on the two-document tie store with
`top_k = -1`, the returned sequence has length `max 0 (2 + (-1)) = 1`. -/
theorem bm25_topk_nonpositive_witness :
    ([⟨"y", DocContent.text "aa", "text", [], some ((1 : Nat) : ℚ)⟩] :
        List (Document ℚ)).length =
      if (-1 : Int) = 0 then 0 else (((["aa", "aa"] : List String).length : Int) + (-1)).toNat := by
  have h := bm25_topk_nonpositive (α := ℚ) (fun x => x) storeTie "aa" (-1) false
    ["aa", "aa"] [⟨"y", DocContent.text "aa", "text", [], some ((1 : Nat) : ℚ)⟩]
    { storeTie with bm25 := some [["aa"], ["aa"]] } (by decide) rfl
    (fun c q => by simp [storeTie, tfScorer]) (by exact rfl)
  exact h

/-- C5.  When the store holds no text or table document at all, the corpus is
empty and `bm25_retrieval` returns the empty sequence with no error (the BM25
scoring capability is modelled from spec section 6 as producing one score per
corpus entry, hence no score for an empty corpus). -/
theorem bm25_empty_corpus {α : Type} [LinearOrder α] [Inhabited α] [Div α] [OfNat α 8]
    (expitFn : α → α) (store : MemoryDocumentStore α) (query : String) (top_k : Int)
    (scale_score : Bool)
    (hempty : filterTextTable store.storage = [])
    (hscorer : ∀ c q, (store.scorer c q).length = c.length) :
    bm25_retrieval expitFn store query top_k scale_score =
      Except.ok ([], { store with bm25 := some [] }) := by
  unfold bm25_retrieval
  rw [hempty]
  have hraw : store.scorer [] (store.tokenizer (pyLower query)) = [] :=
    List.length_eq_zero.mp (hscorer [] _)
  simp only [lower_case_documents, List.map_nil, hraw]
  cases scale_score
  · simp [top_docs_positions, argsort, argsortAux, pySlice]
  · simp [top_docs_positions, argsort, argsortAux, pySlice]

/-- Witness for C5: the empty store returns the empty sequence without
error. -/
theorem bm25_empty_corpus_witness :
    bm25_retrieval (α := ℚ) (fun x => x) storeEmpty "cat" 10 true =
      Except.ok ([], { storeEmpty with bm25 := some [] }) :=
  bm25_empty_corpus (fun x => x) storeEmpty "cat" 10 true rfl
    (fun c q => by simp [storeEmpty, tfScorer])

/-- C9.  `bm25_retrieval` never mutates the stored documents: whenever the
call returns, the storage dictionary of the resulting store state is exactly
the one it started with (the method only sets the `bm25` attribute and builds
score-annotated fresh copies of the selected documents). -/
theorem bm25_retrieval_no_mutation {α : Type} [LinearOrder α] [Inhabited α] [Div α]
    [OfNat α 8] (expitFn : α → α) (store : MemoryDocumentStore α) (query : String)
    (top_k : Int) (scale_score : Bool) (docs : List (Document α))
    (st : MemoryDocumentStore α)
    (hok : bm25_retrieval expitFn store query top_k scale_score = Except.ok (docs, st)) :
    st.storage = store.storage := by
  unfold bm25_retrieval at hok
  cases hlcd : lower_case_documents (filterTextTable store.storage) with
  | error e =>
    simp only [hlcd] at hok
    exact Except.noConfusion hok
  | ok lcd =>
    simp only [hlcd, Except.ok.injEq, Prod.mk.injEq] at hok
    rw [← hok.2]

/-- Witness for C9: running retrieval on the mixed store leaves its storage
untouched. -/
theorem bm25_retrieval_no_mutation_witness :
    ({ storeMix with bm25 := some [["cat"]] } : MemoryDocumentStore ℚ).storage =
      storeMix.storage :=
  bm25_retrieval_no_mutation (fun x => x) storeMix "cat" 1 false
    [⟨"t", DocContent.text "no frame", "table", [], some ((1 : Nat) : ℚ)⟩]
    { storeMix with bm25 := some [["cat"]] } rfl

/-- The logistic transform is strictly positive. -/
theorem expit_pos (x : ℝ) : 0 < expit x := by
  unfold expit
  positivity

/-- The logistic transform is strictly below one. -/
theorem expit_lt_one (x : ℝ) : expit x < 1 := by
  unfold expit
  rw [div_lt_one (by positivity)]
  linarith [Real.exp_pos (-x)]

/-- C8.  With `scale_score = True`, every raw score is divided by 8 and passed
through the logistic transform (line 204), so the score annotated on every
returned document lies strictly within the open interval (0,1). -/
theorem bm25_scale_score_unit_interval (store : MemoryDocumentStore ℝ) (query : String)
    (top_k : Int) (docs : List (Document ℝ)) (st : MemoryDocumentStore ℝ)
    (hok : bm25_retrieval expit store query top_k true = Except.ok (docs, st))
    (d : Document ℝ) (hd : d ∈ docs) (s : ℝ) (hs : d.score = some s) :
    0 < s ∧ s < 1 := by
  unfold bm25_retrieval at hok
  cases hlcd : lower_case_documents (filterTextTable store.storage) with
  | error e =>
    simp only [hlcd] at hok
    exact Except.noConfusion hok
  | ok lcd =>
    simp only [hlcd, reduceIte, Except.ok.injEq, Prod.mk.injEq] at hok
    obtain ⟨hdocs, hst⟩ := hok
    rw [← hdocs] at hd
    obtain ⟨i, hi, hdi⟩ := List.mem_map.mp hd
    have hilt := mem_top_docs_positions _ top_k i hi
    rw [List.length_map] at hilt
    have hscore : s = sAt ((store.scorer (lcd.map store.tokenizer)
        (store.tokenizer (pyLower query))).map (fun r => expit (r / 8))) i := by
      have h1 : d.score = some (sAt ((store.scorer (lcd.map store.tokenizer)
          (store.tokenizer (pyLower query))).map (fun r => expit (r / 8))) i) := by
        rw [← hdi]
        rfl
      rw [hs] at h1
      exact Option.some.inj h1
    have h2 : sAt ((store.scorer (lcd.map store.tokenizer)
        (store.tokenizer (pyLower query))).map (fun r => expit (r / 8))) i =
        expit ((store.scorer (lcd.map store.tokenizer)
          (store.tokenizer (pyLower query))).getD i default / 8) := by
      unfold sAt
      rw [List.getD_eq_getElem?_getD, List.getElem?_map,
        List.getElem?_eq_getElem hilt]
      simp [List.getD_eq_getElem?_getD, List.getElem?_eq_getElem hilt]
    rw [hscore, h2]
    exact ⟨expit_pos _, expit_lt_one _⟩

/-- Witness for C8: a one-document run with raw score `0` returns the score
`expit (0/8)`, which the theorem places strictly inside (0,1). -/
theorem bm25_scale_score_unit_interval_witness :
    0 < expit (0 / 8) ∧ expit (0 / 8) < 1 := by
  have h := bm25_scale_score_unit_interval storeReal "aa" 10
    [⟨"r", DocContent.text "aa", "text", [], some (expit (0 / 8))⟩]
    { storeReal with bm25 := some [["aa"]] } rfl
    ⟨"r", DocContent.text "aa", "text", [], some (expit (0 / 8))⟩
    (List.mem_singleton.mpr rfl) (expit (0 / 8)) rfl
  exact h

end Haystack
